import Mathlib

/-!
Shallow embedding of the core pipeline of `app.py` from the
Resume-ATS-Score-Predictor repository: the response parser
`parse_ats_response`, the retrying generation client
`call_gemini_api_with_retry`, and the prompt construction performed in
`upload_resume`.  Strings are modelled as lists of characters; Python
`None` becomes `Option`; the network transport is abstracted as an oracle
mapping the attempt index to the outcome of that attempt.
-/

/-- Strings of the Python program, modelled as lists of characters. -/
abbrev Str := List Char

/-- ASCII whitespace, the character class of Python `str.strip()` and of
the regex class `\s` (restricted to ASCII input). -/
def isWS (c : Char) : Bool :=
  c = ' ' || c = '\t' || c = '\n' || c = '\r' || c = '\x0b' || c = '\x0c'

/-- Decimal digits, the regex class `\d` (restricted to ASCII input). -/
def isDigitCh (c : Char) : Bool :=
  '0' ≤ c && c ≤ '9'

/-- The character set of Python `lstrip('- ')` in the bullet branch. -/
def isDashSpace (c : Char) : Bool :=
  c = '-' || c = ' '

/-- Whether `pat` occurs at the very beginning of `l`
(Python `str.startswith`). -/
def listBeginsWith : Str → Str → Bool
  | [], _ => true
  | _ :: _, [] => false
  | p :: ps, c :: cs => p = c && listBeginsWith ps cs

/-- Whether `pat` occurs somewhere inside `l` (Python `in` on strings). -/
def containsSub (pat : Str) : Str → Bool
  | [] => listBeginsWith pat []
  | c :: cs => listBeginsWith pat (c :: cs) || containsSub pat cs

/-- Python `str.strip()`: remove whitespace from both ends. -/
def stripChars (l : Str) : Str :=
  ((l.dropWhile isWS).reverse.dropWhile isWS).reverse

/-- Python `str.split('\n')`: split on every newline, keeping empty
pieces; the empty string splits to one empty piece. -/
def splitNl : Str → List Str
  | [] => [[]]
  | c :: cs =>
    if c = '\n' then [] :: splitNl cs
    else
      match splitNl cs with
      | [] => [[c]]
      | t :: ts => (c :: t) :: ts

/-- Python `int` applied to a non-empty string of decimal digits. -/
def digitsToNat (ds : Str) : Nat :=
  ds.foldl (fun a c => a * 10 + (c.toNat - '0'.toNat)) 0

/-- The literal label `"ATS Score:"` anchoring the score regex. -/
def scoreLabel : Str := "ATS Score:".data

/-- The literal heading `"Suggestions:"`. -/
def suggLabel : Str := "Suggestions:".data

/-- The characters of the unavailable marker `"N/A"`. -/
def naChars : Str := "N/A".data

/-- One attempted match of the regex `ATS Score:\s*(\d+)` at the start of
`l`: the literal label, then greedy whitespace, then at least one digit;
returns the integer value of the digit group on success. -/
def matchScoreAt (l : Str) : Option Nat :=
  if listBeginsWith scoreLabel l then
    let ds := ((l.drop scoreLabel.length).dropWhile isWS).takeWhile isDigitCh
    if ds = [] then none else some (digitsToNat ds)
  else none

/-- Python `re.search(r"ATS Score:\s*(\d+)", line)` followed by
`int(...group(1))`: the leftmost match in the line wins. -/
def searchScore : Str → Option Nat
  | [] => matchScoreAt []
  | c :: cs =>
    match matchScoreAt (c :: cs) with
    | some n => some n
    | none => searchScore cs

/-- The suggestion text extracted from a bullet line:
`line.strip().lstrip('- ').strip()`. -/
def bulletText (line : Str) : Str :=
  stripChars ((stripChars line).dropWhile isDashSpace)

/-- A line taken by the bullet branch of the loop: no score match, and the
stripped line starts with a hyphen. -/
def isBulletLine (line : Str) : Bool :=
  (searchScore line).isNone && (stripChars line).head? = some '-'

/-- The `atsScore` field: either the sentinel `"N/A"` or a parsed
integer. -/
inductive Score where
  | na : Score
  | score (n : Nat) : Score
deriving DecidableEq, Repr

/-- The dictionary returned by `parse_ats_response`. -/
structure AnalysisResult where
  atsScore : Score
  suggestions : List Str
deriving DecidableEq, Repr

/-- Decimal digits of `n`, most significant first; fuel-based recursion so
that the definition reduces in the kernel. -/
def natDigitsAux : Nat → Nat → Str
  | 0, _ => []
  | fuel + 1, n =>
    if n = 0 then [] else natDigitsAux fuel (n / 10) ++ [Nat.digitChar (n % 10)]

/-- Python `str` applied to a natural number. -/
def natToDigits (n : Nat) : Str :=
  if n = 0 then ['0'] else natDigitsAux (n + 1) n

/-- Python `str(score)` where `score` is the string `"N/A"` or an int. -/
def scoreStr : Score → Str
  | Score.na => naChars
  | Score.score n => natToDigits n

/-- Filler used when suggestions are empty but a score was found. -/
def keywordFiller : Str :=
  "No specific suggestions were provided, but ensure your resume closely matches the job description keywords.".data

/-- Filler used when suggestions are empty and no score was found. -/
def parseFiller : Str :=
  "Could not parse response or no specific suggestions provided. Ensure the job type is clear.".data

/-- The sentinel suggestion returned for a falsy (absent or empty)
reply. -/
def noResponseMsg : Str :=
  "Could not get a response from AI.".data

/-- The suggestion-collecting part of one loop iteration of
`parse_ats_response`, taken only when the line has no score match: the
bullet branch, the `"Suggestions:"` skip, the blank-line skip, and the
lenient fallback that appends the first other non-blank line while no
suggestions exist yet and the line does not contain `"ATS Score:"`. -/
def processSugg (sugg : List Str) (line : Str) : List Str :=
  if (stripChars line).head? = some '-' then sugg ++ [bulletText line]
  else if containsSub suggLabel line then sugg
  else if stripChars line = [] then sugg
  else if sugg.isEmpty && !(containsSub scoreLabel line) then sugg ++ [stripChars line]
  else sugg

/-- One iteration of the `for line in lines` loop of
`parse_ats_response`: a score match overwrites the score, otherwise the
suggestion branches run. -/
def processLine (st : Score × List Str) (line : Str) : Score × List Str :=
  match searchScore line with
  | some n => (Score.score n, st.2)
  | none => (st.1, processSugg st.2 line)

/-- The state of the line loop after processing the whole reply. -/
def collectState (s : Str) : Score × List Str :=
  (splitNl s).foldl processLine (Score.na, [])

/-- The post-processing of `parse_ats_response`: substitute a filler when
no suggestions were collected, choosing by whether `"N/A"` occurs in
`str(score)`. -/
def finalizeSuggestions (score : Score) (sugg : List Str) : List Str :=
  if sugg.isEmpty && !(containsSub naChars (scoreStr score)) then [keywordFiller]
  else if sugg.isEmpty then [parseFiller]
  else sugg

/-- The non-sentinel path of `parse_ats_response` on a non-empty reply. -/
def parseBody (s : Str) : AnalysisResult :=
  ⟨(collectState s).1, finalizeSuggestions (collectState s).1 (collectState s).2⟩

/-- `parse_ats_response`: a falsy input (Python `None` or the empty
string) yields the fixed sentinel result, otherwise the reply is parsed
line by line. -/
def parse_ats_response : Option Str → AnalysisResult
  | none => ⟨Score.na, [noResponseMsg]⟩
  | some [] => ⟨Score.na, [noResponseMsg]⟩
  | some (c :: cs) => parseBody (c :: cs)

example :
    parse_ats_response
      (some "ATS Score: 82/100\nSuggestions:\n- Add keywords\n- Fix formatting".data) =
    ⟨Score.score 82, ["Add keywords".data, "Fix formatting".data]⟩ := by decide

example : parse_ats_response (some "- ".data) = ⟨Score.na, [[]]⟩ := by decide

example :
    parse_ats_response (some "ATS Score: 10\nATS Score: 20".data) =
    ⟨Score.score 20, [keywordFiller]⟩ := by decide

/-- One JSON part, with its optional `"text"` field; an absent or empty
string is falsy in the Python truthiness checks and is modelled as
`none`. -/
structure GeminiPart where
  text : Option Str
deriving DecidableEq

/-- The `"content"` object, with its optional `"parts"` list. -/
structure GeminiContent where
  parts : Option (List GeminiPart)
deriving DecidableEq

/-- One candidate, with its optional `"content"` object. -/
structure GeminiCandidate where
  content : Option GeminiContent
deriving DecidableEq

/-- The decoded JSON body of a successful response, with its optional
`"candidates"` list (an empty or absent list is falsy). -/
structure GeminiResult where
  candidates : Option (List GeminiCandidate)
deriving DecidableEq

/-- The truthiness chain of lines 102-104 of `app.py`: return the text at
`candidates[0].content.parts[0].text` when every link is present and
truthy, otherwise nothing. -/
def extractText (r : GeminiResult) : Option Str :=
  match r.candidates with
  | some (c :: _) =>
    match c.content with
    | some ct =>
      match ct.parts with
      | some (p :: _) =>
        match p.text with
        | some (ch :: t) => some (ch :: t)
        | _ => none
      | _ => none
    | none => none
  | _ => none

/-- Outcome of one transport attempt: a decoded JSON body, or a
`requests.exceptions.RequestException` (network error, timeout, or
non-success HTTP status raised by `raise_for_status`). -/
inductive TransportResult where
  | ok (payload : GeminiResult) : TransportResult
  | err : TransportResult

/-- Observable outcome of `call_gemini_api_with_retry`: the returned
value, the number of transport attempts performed, and the total time
slept between attempts. -/
structure RetryOut where
  result : Option Str
  attempts : Nat
  slept : Nat
deriving DecidableEq

/-- The retry loop of `call_gemini_api_with_retry`, recursing on the
number `rem` of loop iterations still allowed out of `m`; the current
attempt index is `i = m - rem`.  A successful transport attempt returns
at once (the extracted text, or `None` on an unexpected payload shape);
a transport error sleeps `d * 2 ^ i` and retries while iterations
remain, and returns `None` from the last iteration. -/
def retryAux (tr : Nat → TransportResult) (m d : Nat) : Nat → RetryOut
  | 0 => ⟨none, 0, 0⟩
  | rem + 1 =>
    match tr (m - (rem + 1)) with
    | TransportResult.ok payload =>
      match extractText payload with
      | some t => ⟨some t, 1, 0⟩
      | none => ⟨none, 1, 0⟩
    | TransportResult.err =>
      if 0 < rem then
        let r := retryAux tr m d rem
        ⟨r.result, r.attempts + 1, r.slept + d * 2 ^ (m - (rem + 1))⟩
      else ⟨none, 1, 0⟩

/-- `call_gemini_api_with_retry` with the transport abstracted as an
oracle from attempt index to outcome; `m` is `max_retries` and `d` is
`initial_delay`. -/
def call_gemini_api_with_retry (tr : Nat → TransportResult) (m d : Nat) : RetryOut :=
  retryAux tr m d m

example :
    call_gemini_api_with_retry (fun _ => TransportResult.err) 5 1 =
    ⟨none, 5, 15⟩ := by decide

example :
    call_gemini_api_with_retry (fun _ => TransportResult.ok ⟨none⟩) 5 1 =
    ⟨none, 1, 0⟩ := by decide

/-- The template text of the `ats_prompt` f-string before the
substituted `job_type`. -/
def promptPre : Str :=
  "\n        Analyze the following resume text against the job type \"".data

/-- The template text between the substituted `job_type` and the
substituted `resume_text`. -/
def promptMid : Str :=
  ("\" to determine an ATS (Applicant Tracking System) compatibility score out of 100.\n        Provide actionable suggestions to improve the resume\u0027s ATS score for this specific job type.\n        Focus on keywords, formatting that might hinder ATS, and overall relevance.\n        Structure your response clearly with the ATS Score on one line, followed by a \"Suggestions:\" heading, and then a bulleted list of suggestions.\n        Always include \"/100\" after the score.\n\n        Resume Text:\n        ").data

/-- The template text after the substituted `resume_text`. -/
def promptTail : Str :=
  "\n\n        Expected Output Format:\n        ATS Score: [SCORE]/100\n        Suggestions:\n        - Suggestion 1\n        - Suggestion 2\n        ".data

/-- The `ats_prompt` f-string of `upload_resume`, as a function of the
two substituted values. -/
def ats_prompt (resume_text job_type : Str) : Str :=
  promptPre ++ job_type ++ (promptMid ++ (resume_text ++ promptTail))

/-- The score pattern of the last score-bearing line of a list of lines,
read back to front: later matches take precedence. -/
def lastScoreOf : List Str → Option Nat
  | [] => none
  | l :: ls =>
    match lastScoreOf ls with
    | some n => some n
    | none => searchScore l

theorem listBeginsWith_append (x b : Str) : listBeginsWith x (x ++ b) = true := by
  induction x with
  | nil => rfl
  | cons c cs ih => simp [listBeginsWith, ih]

theorem containsSub_of_begins {pat l : Str} (h : listBeginsWith pat l = true) :
    containsSub pat l = true := by
  cases l with
  | nil => exact h
  | cons c cs => simp [containsSub, h]

theorem containsSub_cons_of {pat l : Str} (c : Char) (h : containsSub pat l = true) :
    containsSub pat (c :: l) = true := by
  simp [containsSub, h]

theorem containsSub_append_left {pat l : Str} (a : Str) (h : containsSub pat l = true) :
    containsSub pat (a ++ l) = true := by
  induction a with
  | nil => exact h
  | cons c cs ih => exact containsSub_cons_of c ih

theorem listBeginsWith_head_mem {p : Char} {ps l : Str}
    (h : listBeginsWith (p :: ps) l = true) : p ∈ l := by
  cases l with
  | nil => simp [listBeginsWith] at h
  | cons c cs =>
    simp only [listBeginsWith, Bool.and_eq_true, decide_eq_true_eq] at h
    exact h.1 ▸ List.mem_cons_self c cs

theorem containsSub_head_mem {p : Char} {ps l : Str}
    (h : containsSub (p :: ps) l = true) : p ∈ l := by
  induction l with
  | nil => simp [containsSub, listBeginsWith] at h
  | cons c cs ih =>
    simp only [containsSub, Bool.or_eq_true] at h
    cases h with
    | inl h => exact listBeginsWith_head_mem h
    | inr h => exact List.mem_cons_of_mem c (ih h)

theorem natDigitsAux_mem {fuel n : Nat} {c : Char} (h : c ∈ natDigitsAux fuel n) :
    ∃ d, d < 10 ∧ c = Nat.digitChar d := by
  induction fuel generalizing n with
  | zero => simp [natDigitsAux] at h
  | succ fuel ih =>
    unfold natDigitsAux at h
    split at h
    · simp at h
    · rw [List.mem_append] at h
      cases h with
      | inl h => exact ih h
      | inr h =>
        rw [List.mem_singleton] at h
        exact ⟨n % 10, Nat.mod_lt _ (by norm_num), h⟩

theorem digitChar_ne_N : ∀ d < 10, Nat.digitChar d ≠ 'N' := by decide

theorem scoreStr_score_no_na (n : Nat) :
    containsSub naChars (scoreStr (Score.score n)) = false := by
  rw [Bool.eq_false_iff]
  intro h
  rw [show naChars = 'N' :: ['/', 'A'] from rfl] at h
  have hN := containsSub_head_mem h
  rw [show scoreStr (Score.score n) = natToDigits n from rfl] at hN
  unfold natToDigits at hN
  split at hN
  · exact absurd hN (by decide)
  · obtain ⟨d, hd, hc⟩ := natDigitsAux_mem hN
    exact digitChar_ne_N d hd hc.symm

theorem finalizeSuggestions_ne_nil (sc : Score) (sg : List Str) :
    finalizeSuggestions sc sg ≠ [] := by
  unfold finalizeSuggestions
  split
  · simp
  · split
    · simp
    · rename_i h1 h2
      cases sg with
      | nil => exact absurd rfl h2
      | cons a l => simp

theorem parse_suggestions_ne_nil (reply : Option Str) :
    (parse_ats_response reply).suggestions ≠ [] := by
  cases reply with
  | none => simp [parse_ats_response]
  | some s =>
    cases s with
    | nil => simp [parse_ats_response]
    | cons c cs => exact finalizeSuggestions_ne_nil _ _

theorem processLine_score {sc : Score} {sg : List Str} {l : Str} {n : Nat}
    (h : searchScore l = some n) : processLine (sc, sg) l = (Score.score n, sg) := by
  unfold processLine
  rw [h]

theorem processLine_noScore {sc : Score} {sg : List Str} {l : Str}
    (h : searchScore l = none) : processLine (sc, sg) l = (sc, processSugg sg l) := by
  unfold processLine
  rw [h]

theorem collect_fst (lines : List Str) (sc : Score) (sg : List Str) :
    (lines.foldl processLine (sc, sg)).1 =
      match lastScoreOf lines with
      | some n => Score.score n
      | none => sc := by
  induction lines generalizing sc sg with
  | nil => rfl
  | cons l ls ih =>
    rw [List.foldl_cons]
    cases hl : searchScore l with
    | some n =>
      rw [processLine_score hl, ih]
      simp only [lastScoreOf]
      cases h2 : lastScoreOf ls <;> simp [h2, hl]
    | none =>
      rw [processLine_noScore hl, ih]
      simp only [lastScoreOf]
      cases h2 : lastScoreOf ls <;> simp [h2, hl]

theorem isBulletLine_of_score {l : Str} {n : Nat} (h : searchScore l = some n) :
    isBulletLine l = false := by
  simp [isBulletLine, h]

theorem processSugg_ne_nil_not_bullet {sg : List Str} {line : Str} (h : sg ≠ [])
    (hb : ¬(stripChars line).head? = some '-') : processSugg sg line = sg := by
  unfold processSugg
  rw [if_neg hb]
  have hE : sg.isEmpty = false := by
    cases sg with
    | nil => exact absurd rfl h
    | cons a l => rfl
  split
  · rfl
  · split
    · rfl
    · simp [hE]

theorem collect_suffix_ne (lines : List Str) (sc : Score) (sg : List Str) (h : sg ≠ []) :
    (lines.foldl processLine (sc, sg)).2 =
      sg ++ (lines.filter isBulletLine).map bulletText := by
  induction lines generalizing sc sg with
  | nil => simp
  | cons l ls ih =>
    rw [List.foldl_cons]
    cases hl : searchScore l with
    | some n =>
      rw [processLine_score hl, ih _ _ h, List.filter_cons, isBulletLine_of_score hl]
      simp
    | none =>
      rw [processLine_noScore hl]
      by_cases hbul : (stripChars l).head? = some '-'
      · have hps : processSugg sg l = sg ++ [bulletText l] := by
          unfold processSugg
          rw [if_pos hbul]
        have hb : isBulletLine l = true := by simp [isBulletLine, hl, hbul]
        rw [hps, ih _ _ (by simp), List.filter_cons, hb]
        simp
      · have hb : isBulletLine l = false := by simp [isBulletLine, hbul]
        rw [processSugg_ne_nil_not_bullet h hbul, ih _ _ h, List.filter_cons, hb]
        simp

theorem collect_suffix_nil (lines : List Str) (sc : Score) :
    ∃ pre : List Str,
      (lines.foldl processLine (sc, [])).2 =
        pre ++ (lines.filter isBulletLine).map bulletText ∧
      pre.length ≤ 1 ∧ ∀ p ∈ pre, p ≠ [] := by
  induction lines generalizing sc with
  | nil => exact ⟨[], by simp, by simp, by simp⟩
  | cons l ls ih =>
    rw [List.foldl_cons]
    cases hl : searchScore l with
    | some n =>
      rw [processLine_score hl, List.filter_cons, isBulletLine_of_score hl]
      obtain ⟨pre, h1, h2, h3⟩ := ih (Score.score n)
      exact ⟨pre, by rw [h1]; simp, h2, h3⟩
    | none =>
      rw [processLine_noScore hl]
      by_cases hbul : (stripChars l).head? = some '-'
      · have hps : processSugg [] l = [bulletText l] := by
          unfold processSugg
          rw [if_pos hbul]
          rfl
        have hb : isBulletLine l = true := by simp [isBulletLine, hl, hbul]
        rw [hps, collect_suffix_ne ls sc _ (by simp), List.filter_cons, hb]
        exact ⟨[], by simp, by simp, by simp⟩
      · have hb : isBulletLine l = false := by simp [isBulletLine, hbul]
        rw [List.filter_cons, hb]
        by_cases hsug : containsSub suggLabel l = true
        · have hps : processSugg [] l = [] := by
            unfold processSugg
            rw [if_neg hbul, if_pos hsug]
          rw [hps]
          obtain ⟨pre, h1, h2, h3⟩ := ih sc
          exact ⟨pre, by rw [h1]; simp, h2, h3⟩
        · by_cases hstrip : stripChars l = []
          · have hps : processSugg [] l = [] := by
              unfold processSugg
              rw [if_neg hbul, if_neg hsug, if_pos hstrip]
            rw [hps]
            obtain ⟨pre, h1, h2, h3⟩ := ih sc
            exact ⟨pre, by rw [h1]; simp, h2, h3⟩
          · by_cases hsc : containsSub scoreLabel l = true
            · have hps : processSugg [] l = [] := by
                unfold processSugg
                rw [if_neg hbul, if_neg hsug, if_neg hstrip]
                simp [hsc]
              rw [hps]
              obtain ⟨pre, h1, h2, h3⟩ := ih sc
              exact ⟨pre, by rw [h1]; simp, h2, h3⟩
            · have hps : processSugg [] l = [stripChars l] := by
                unfold processSugg
                rw [if_neg hbul, if_neg hsug, if_neg hstrip]
                simp [hsc]
              rw [hps, collect_suffix_ne ls sc _ (by simp)]
              exact ⟨[stripChars l], by simp, by simp, by simp [hstrip]⟩

theorem collectState_structure (s : Str) :
    ∃ pre : List Str,
      (collectState s).2 = pre ++ ((splitNl s).filter isBulletLine).map bulletText ∧
      pre.length ≤ 1 ∧ ∀ p ∈ pre, p ≠ [] :=
  collect_suffix_nil (splitNl s) Score.na

theorem retryAux_allFail (tr : Nat → TransportResult)
    (hf : ∀ k, tr k = TransportResult.err) (m d : Nat) :
    ∀ rem, rem ≤ m →
      retryAux tr m d rem = ⟨none, rem, ∑ k in Finset.Ico (m - rem) (m - 1), d * 2 ^ k⟩ := by
  intro rem
  induction rem with
  | zero =>
    intro _
    rw [Finset.Ico_eq_empty (by omega), Finset.sum_empty]
    rfl
  | succ rem ih =>
    intro hle
    unfold retryAux
    rw [hf (m - (rem + 1))]
    by_cases hr : 0 < rem
    · rw [if_pos hr, ih (by omega)]
      have hsum : ∑ k in Finset.Ico (m - (rem + 1)) (m - 1), d * 2 ^ k
          = d * 2 ^ (m - (rem + 1)) + ∑ k in Finset.Ico (m - rem) (m - 1), d * 2 ^ k := by
        rw [Finset.sum_eq_sum_Ico_succ_bot (by omega : m - (rem + 1) < m - 1)]
        rw [show m - (rem + 1) + 1 = m - rem from by omega]
      rw [hsum]
      simp [Nat.add_comm]
    · have hr0 : rem = 0 := by omega
      subst hr0
      rw [if_neg hr, Finset.Ico_eq_empty (by omega), Finset.sum_empty]

/-- C1 counterexample: on a reply with two score-bearing lines the parser
returns the score of the second (last) line, not of the first, so the
claim that the first match wins fails at this input. -/
theorem parse_score_last_wins_cex :
    (parse_ats_response (some "ATS Score: 10\nATS Score: 20".data)).atsScore =
      Score.score 20 ∧
    (parse_ats_response (some "ATS Score: 10\nATS Score: 20".data)).atsScore ≠
      Score.score 10 := by
  decide

/-- C1 (amended): for every reply string, the atsScore returned by
`parse_ats_response` is the integer taken from the last line matching the
numeric score pattern anchored on `"ATS Score:"` (each later matching
line overwrites the score of the earlier ones), and the `"N/A"` sentinel
when no line matches. -/
theorem parse_score_last_wins (s : Str) :
    (parse_ats_response (some s)).atsScore =
      match lastScoreOf (splitNl s) with
      | some n => Score.score n
      | none => Score.na := by
  cases s with
  | nil => rfl
  | cons c cs => exact collect_fst (splitNl (c :: cs)) Score.na []

/-- C2: for every input, absent reply and string reply alike, the
suggestions list of the result of `parse_ats_response` has at least one
element; an empty suggestions list is never returned. -/
theorem parse_never_empty_suggestions (reply : Option Str) :
    (parse_ats_response reply).suggestions ≠ [] :=
  parse_suggestions_ne_nil reply

/-- C3: `parse_ats_response` on the unavailable input (`None`, or the
falsy empty reply) returns exactly the sentinel result with the `"N/A"`
score and the singleton "no AI response" suggestion list. -/
theorem parse_unavailable_sentinel :
    parse_ats_response none = ⟨Score.na, [noResponseMsg]⟩ ∧
    parse_ats_response (some "".data) = ⟨Score.na, [noResponseMsg]⟩ :=
  ⟨rfl, rfl⟩

/-- C4: when every transport attempt fails with a retryable transport
error, `call_gemini_api_with_retry` invokes the transport exactly
`max_retries` times, returns `None`, and sleeps a total of
`initial_delay * (2^0 + ... + 2^(max_retries - 2))`, with no sleep after
the final attempt. -/
theorem generate_all_fail (m d : Nat) (tr : Nat → TransportResult)
    (hf : ∀ k, tr k = TransportResult.err) :
    (call_gemini_api_with_retry tr m d).result = none ∧
    (call_gemini_api_with_retry tr m d).attempts = m ∧
    (call_gemini_api_with_retry tr m d).slept =
      ∑ k in Finset.range (m - 1), d * 2 ^ k := by
  have h := retryAux_allFail tr hf m d m le_rfl
  unfold call_gemini_api_with_retry
  rw [h]
  refine ⟨rfl, rfl, ?_⟩
  rw [Nat.sub_self, Finset.range_eq_Ico]

/-- C4 witness: a concrete always-failing transport with five allowed
attempts and unit initial delay. -/
theorem generate_all_fail_witness :
    (call_gemini_api_with_retry (fun _ => TransportResult.err) 5 1).result = none ∧
    (call_gemini_api_with_retry (fun _ => TransportResult.err) 5 1).attempts = 5 ∧
    (call_gemini_api_with_retry (fun _ => TransportResult.err) 5 1).slept =
      ∑ k in Finset.range (5 - 1), 1 * 2 ^ k :=
  generate_all_fail 5 1 (fun _ => TransportResult.err) (fun _ => rfl)

/-- C5: when the first transport attempt succeeds but the payload lacks
the nested text field at `candidates[0].content.parts[0].text`,
`call_gemini_api_with_retry` returns `None` immediately: exactly one
attempt is performed and no backoff sleep happens, however many attempts
would remain. -/
theorem generate_soft_failure (tr : Nat → TransportResult) (m d : Nat)
    (p : GeminiResult) (hm : 0 < m) (h0 : tr 0 = TransportResult.ok p)
    (hext : extractText p = none) :
    call_gemini_api_with_retry tr m d = ⟨none, 1, 0⟩ := by
  obtain ⟨k, rfl⟩ : ∃ k, m = k + 1 := ⟨m - 1, by omega⟩
  unfold call_gemini_api_with_retry retryAux
  rw [Nat.sub_self, h0]
  simp [hext]

/-- C5 witness: a transport whose first attempt yields a payload without
candidates, with five allowed attempts. -/
theorem generate_soft_failure_witness :
    call_gemini_api_with_retry (fun _ => TransportResult.ok ⟨none⟩) 5 1 =
      ⟨none, 1, 0⟩ :=
  generate_soft_failure (fun _ => TransportResult.ok ⟨none⟩) 5 1 ⟨none⟩
    (by decide) rfl rfl

/-- C6 counterexample: a bullet line holding only a hyphen and a space
produces the empty string as a suggestion element, so the claim that
every element is non-empty fails at this input. -/
theorem parse_empty_suggestion_cex :
    (parse_ats_response (some "- ".data)).suggestions = [[]] ∧
    [] ∈ (parse_ats_response (some "- ".data)).suggestions := by
  decide

/-- C6 (amended): for every reply string, the suggestions list returned
by `parse_ats_response` is an optional lead-in of at most one non-empty
entry (the lenient-fallback line or a filler) followed by the texts of
the bullet lines in the same order as these lines appear in the reply;
bullet-derived elements may be empty when the bullet line consists only
of hyphens and spaces. -/
theorem parse_suggestions_structure (s : Str) :
    ∃ pre : List Str,
      (parse_ats_response (some s)).suggestions =
        pre ++ ((splitNl s).filter isBulletLine).map bulletText ∧
      pre.length ≤ 1 ∧ ∀ p ∈ pre, p ≠ [] := by
  cases s with
  | nil => exact ⟨[noResponseMsg], by decide, by decide, by decide⟩
  | cons c cs =>
    obtain ⟨pre, h1, h2, h3⟩ := collectState_structure (c :: cs)
    show ∃ pre : List Str,
      finalizeSuggestions (collectState (c :: cs)).1 (collectState (c :: cs)).2 = _ ∧ _
    by_cases hemp : (collectState (c :: cs)).2 = []
    · have hx : pre ++ ((splitNl (c :: cs)).filter isBulletLine).map bulletText = [] := by
        rw [← h1, hemp]
      obtain ⟨hpre, hmap⟩ := List.append_eq_nil.mp hx
      rw [hemp, hmap]
      have hfin : finalizeSuggestions (collectState (c :: cs)).1 [] = [keywordFiller] ∨
          finalizeSuggestions (collectState (c :: cs)).1 [] = [parseFiller] := by
        unfold finalizeSuggestions
        split
        · exact Or.inl rfl
        · split
          · exact Or.inr rfl
          · rename_i hc1 hc2
            exact absurd rfl hc2
      cases hfin with
      | inl hf => exact ⟨[keywordFiller], by rw [hf]; simp, by simp, by decide⟩
      | inr hf => exact ⟨[parseFiller], by rw [hf]; simp, by simp, by decide⟩
    · have hE : ((collectState (c :: cs)).2).isEmpty = false := by
        cases hc : (collectState (c :: cs)).2 with
        | nil => exact absurd hc hemp
        | cons a l => rfl
      have hfin : finalizeSuggestions (collectState (c :: cs)).1 (collectState (c :: cs)).2 =
          (collectState (c :: cs)).2 := by
        unfold finalizeSuggestions
        simp [hE]
      exact ⟨pre, by rw [hfin, h1], h2, h3⟩

/-- C7 counterexample: on the empty reply the loop collects no
suggestions and finds no score, yet the result carries the "no AI
response" sentinel message rather than the could-not-parse filler, so
the claim fails at this input. -/
theorem parse_empty_reply_cex :
    (collectState "".data).2 = [] ∧
    (collectState "".data).1 = Score.na ∧
    (parse_ats_response (some "".data)).atsScore = Score.na ∧
    (parse_ats_response (some "".data)).suggestions ≠ [parseFiller] := by
  decide

/-- C7 (amended): for every non-empty reply in which the loop collects no
suggestion lines: if a numeric score was found the result carries the
single generic keyword-alignment filler; if no score was found either,
the result carries the `"N/A"` score and the distinct could-not-parse
filler; and the two filler texts differ. -/
theorem parse_fillers (s : Str) (hs : s ≠ []) (h : (collectState s).2 = []) :
    (∀ n, (collectState s).1 = Score.score n →
        (parse_ats_response (some s)).suggestions = [keywordFiller]) ∧
    ((collectState s).1 = Score.na →
        (parse_ats_response (some s)).atsScore = Score.na ∧
        (parse_ats_response (some s)).suggestions = [parseFiller]) ∧
    keywordFiller ≠ parseFiller := by
  obtain ⟨c, cs, rfl⟩ := List.exists_cons_of_ne_nil hs
  refine ⟨?_, ?_, by decide⟩
  · intro n hn
    show finalizeSuggestions (collectState (c :: cs)).1 (collectState (c :: cs)).2 =
      [keywordFiller]
    rw [h, hn]
    unfold finalizeSuggestions
    simp [scoreStr_score_no_na]
  · intro hna
    refine ⟨hna, ?_⟩
    show finalizeSuggestions (collectState (c :: cs)).1 (collectState (c :: cs)).2 =
      [parseFiller]
    rw [h, hna]
    unfold finalizeSuggestions
    simp [show containsSub naChars (scoreStr Score.na) = true from by decide]

/-- C7 witness: a reply consisting of a single score line collects no
suggestions and yields the keyword-alignment filler. -/
theorem parse_fillers_witness :
    ("ATS Score: 42".data ≠ ([] : Str)) ∧
    (collectState "ATS Score: 42".data).2 = [] ∧
    ((∀ n, (collectState "ATS Score: 42".data).1 = Score.score n →
        (parse_ats_response (some "ATS Score: 42".data)).suggestions = [keywordFiller]) ∧
     ((collectState "ATS Score: 42".data).1 = Score.na →
        (parse_ats_response (some "ATS Score: 42".data)).atsScore = Score.na ∧
        (parse_ats_response (some "ATS Score: 42".data)).suggestions = [parseFiller]) ∧
     keywordFiller ≠ parseFiller) :=
  ⟨by decide, by decide, parse_fillers "ATS Score: 42".data (by decide) (by decide)⟩

/-- C8: for all non-empty resume text and any job type, the prompt built
in `upload_resume` contains both inputs verbatim as substrings as well as
the literal substrings `"ATS Score:"` and `"Suggestions:"`. -/
theorem prompt_contains (resume_text job_type : Str) (_h : resume_text ≠ []) :
    containsSub resume_text (ats_prompt resume_text job_type) = true ∧
    containsSub job_type (ats_prompt resume_text job_type) = true ∧
    containsSub scoreLabel (ats_prompt resume_text job_type) = true ∧
    containsSub suggLabel (ats_prompt resume_text job_type) = true := by
  unfold ats_prompt
  simp only [List.append_assoc]
  refine ⟨?_, ?_, ?_, ?_⟩
  · exact containsSub_append_left _ (containsSub_append_left _ (containsSub_append_left _
      (containsSub_of_begins (listBeginsWith_append _ _))))
  · exact containsSub_append_left _
      (containsSub_of_begins (listBeginsWith_append _ _))
  · exact containsSub_append_left _ (containsSub_append_left _ (containsSub_append_left _
      (containsSub_append_left _
        (show containsSub scoreLabel promptTail = true from by decide))))
  · exact containsSub_append_left _ (containsSub_append_left _ (containsSub_append_left _
      (containsSub_append_left _
        (show containsSub suggLabel promptTail = true from by decide))))

/-- C8 witness: concrete one-character inputs. -/
theorem prompt_contains_witness :
    containsSub "R".data (ats_prompt "R".data "J".data) = true ∧
    containsSub "J".data (ats_prompt "R".data "J".data) = true ∧
    containsSub scoreLabel (ats_prompt "R".data "J".data) = true ∧
    containsSub suggLabel (ats_prompt "R".data "J".data) = true :=
  prompt_contains "R".data "J".data (by decide)

/-- C9: `parse_ats_response` is a total pure function of its input: for
every reply, absent or arbitrary text, it returns a well-formed
`AnalysisResult`, whose score is the sentinel or an integer and whose
suggestions list is non-empty. -/
theorem parse_total_wellformed (reply : Option Str) :
    ∃ r : AnalysisResult, parse_ats_response reply = r ∧
      r.suggestions ≠ [] ∧
      (r.atsScore = Score.na ∨ ∃ n, r.atsScore = Score.score n) := by
  refine ⟨parse_ats_response reply, rfl, parse_suggestions_ne_nil reply, ?_⟩
  cases h : (parse_ats_response reply).atsScore with
  | na => exact Or.inl rfl
  | score n => exact Or.inr ⟨n, rfl⟩

/-- C10: whenever `parse_ats_response` returns an integer score, that
integer is non-negative, and no upper bound is enforced: the reply
`"ATS Score: 150"` yields the score 150 unchanged. -/
theorem parse_score_nonneg_unbounded :
    (∀ (s : Str) (n : Nat),
        (parse_ats_response (some s)).atsScore = Score.score n → 0 ≤ (n : Int)) ∧
    (parse_ats_response (some "ATS Score: 150".data)).atsScore = Score.score 150 := by
  refine ⟨fun s n _ => Int.natCast_nonneg n, ?_⟩
  decide

/-- C10 witness: the score parsed from `"ATS Score: 150"` is 150 and
non-negative. -/
theorem parse_score_nonneg_unbounded_witness :
    (parse_ats_response (some "ATS Score: 150".data)).atsScore = Score.score 150 ∧
    0 ≤ ((150 : Nat) : Int) :=
  ⟨parse_score_nonneg_unbounded.2,
   parse_score_nonneg_unbounded.1 "ATS Score: 150".data 150
     parse_score_nonneg_unbounded.2⟩
